import Mathlib

set_option linter.unusedVariables false

/-!
# Verification of the monitor-medicina aggregation and lifecycle pipeline

This file gives a shallow embedding, in Lean 4, of the core of the
monitor-medicina repository: the article lifecycle store
(src/lib/search-service.ts) and the multi-source search pipeline
(the MedicalResearchAgent route: relevance keywords, scorer, ranking
comparator, seen-URL deduplication, and the four source adapters),
together with theorems checking the specification's claims against it.

Modelling conventions:
* Timestamps are integers (epoch milliseconds); the current time is an
  explicit parameter everywhere the source calls new Date().
* File/disk state and the in-memory cache of the store are modelled as a
  single persisted list of article records passed explicitly; both the
  cache branch and the disk branch of the source compute the same
  filter-then-slice view that is modelled here.
* A JavaScript value that may be undefined (or falsy) is modelled as an
  Option; record fields that the runtime data may lack (legacy records
  missing expiresAt) are Options even where the TypeScript interface
  declares them required, because the code guards for their absence.
* Network I/O is modelled by an explicit environment holding the outcome
  of each outbound request (thrown error, non-OK response, or a parsed
  payload); response parsing that can throw is part of the error outcome.
-/

/-! ## Generic JavaScript-flavoured helpers -/

/-- Insertion-order deduplication of a list of strings, as produced by
spreading a JavaScript Set built by successive insertions: the first
occurrence of each string is kept, later occurrences are dropped. -/
def dedupFirstAux (seen : List String) : List String → List String
  | [] => []
  | x :: xs =>
    if seen.contains x then dedupFirstAux seen xs
    else x :: dedupFirstAux (x :: seen) xs

/-- Deduplication keeping first occurrences, starting from an empty seen-set. -/
def dedupFirst (l : List String) : List String := dedupFirstAux [] l

/-- Numeric value of a list of decimal digit characters. -/
def digitsToNat (cs : List Char) : Nat :=
  cs.foldl (fun n c => 10 * n + (c.toNat - 48)) 0

/-- Leading decimal-digit run of a character list, as a number; none when
the list does not start with a digit (JavaScript parseInt returns NaN). -/
def leadDigits (cs : List Char) : Option Nat :=
  let ds := cs.takeWhile (·.isDigit)
  if ds.isEmpty then none else some (digitsToNat ds)

/-- JavaScript parseInt with radix 10 on a string: skip leading whitespace,
accept an optional sign, read the leading digit run; none models NaN. -/
def parseIntJS (s : String) : Option Int :=
  let cs := s.toList.dropWhile (fun c => c == ' ' || c == '\t' || c == '\n' || c == '\r')
  match cs with
  | '-' :: rest => (leadDigits rest).map (fun n => -(n : Int))
  | '+' :: rest => (leadDigits rest).map (fun n => (n : Int))
  | rest => (leadDigits rest).map (fun n => (n : Int))

/-- Substring test: hay.includes needle, on exploded characters. -/
def includesStr (hay needle : String) : Bool :=
  (hay.toList.tails).any (fun t => needle.toList.isPrefixOf t)

/-- String interpolation of a possibly-undefined value: JavaScript template
literals render undefined as the text "undefined". -/
def jsInterp (o : Option String) : String :=
  match o with
  | none => "undefined"
  | some s => s

/-- JavaScript x || d on a possibly-undefined string: the default is used
when the value is absent or empty (falsy). -/
def jsOr (o : Option String) (d : String) : String :=
  match o with
  | none => d
  | some s => if s = "" then d else s

/-- Truthiness of a possibly-undefined string. -/
def strTruthy (o : Option String) : Bool :=
  match o with
  | none => false
  | some s => s ≠ ""

/-! ## The lifecycle store (src/lib/search-service.ts) -/

namespace SearchService

/-- Persisted article record of search-service.ts.  dateFound and expiresAt
are ISO timestamps in the source, modelled as epoch milliseconds; they are
Options because runtime records can carry an absent or empty (falsy) value,
which the code guards for (legacy data predating the expiry feature). -/
structure Article where
  id : String
  title : String
  url : String
  source : String
  snippet : String
  publicationDate : Option String
  dateFound : Option Int
  expiresAt : Option Int
deriving DecidableEq, Repr

/-- Maximum number of articles to keep. -/
def MAX_ARTICLES : Nat := 15

/-- Article expiration period in days. -/
def ARTICLE_EXPIRATION_DAYS : Int := 30

/-- Milliseconds in a day. -/
def msPerDay : Int := 24 * 60 * 60 * 1000

/-- Milliseconds in the 30-day retention window. -/
def expirationMs : Int := ARTICLE_EXPIRATION_DAYS * msPerDay

/-- Milliseconds in the 7-day search cadence. -/
def weekMs : Int := 7 * msPerDay

/-- Singleton last-search record. -/
structure LastSearchData where
  lastSearchTimestamp : Option Int
  nextScheduledSearch : Option Int
  articlesFound : Nat
  sourcesSearched : List String
deriving DecidableEq, Repr

/-- Filter out expired articles; an article without expiresAt is legacy and
treated as expired (filterExpiredArticles in the source: keeps a record iff
new Date(a.expiresAt) > now). -/
def filterExpiredArticles (now : Int) (articles : List Article) : List Article :=
  articles.filter fun a =>
    match a.expiresAt with
    | none => false
    | some e => decide (now < e)

/-- Articles returned by readArticlesData: both the memory-cache branch and
the disk branch of the source filter expired/legacy records and slice to
MAX_ARTICLES; the disk branch also re-persists exactly this cleaned list
(self-healing read). -/
def readArticlesData (now : Int) (stored : List Article) : List Article :=
  (filterExpiredArticles now stored).take MAX_ARTICLES

/-- Stamp an expiration date: expiresAt is dateFound plus the 30-day window,
where an absent (falsy) dateFound falls back to the current time
(new Date(article.dateFound || new Date())). -/
def addExpirationDate (now : Int) (a : Article) : Article :=
  { a with expiresAt := some (a.dateFound.getD now + expirationMs) }

/-- Merge-and-save (saveSearchResults in the source): read the store (the
capped, expiry-filtered view), filter expired articles again, drop incoming
articles whose url is already present, stamp expiration dates on the
survivors, prepend them, truncate to MAX_ARTICLES, and return the new
persisted list together with the updated last-search record. -/
def saveSearchResults (now : Int) (stored : List Article) (articles : List Article) :
    List Article × LastSearchData :=
  let existingData := readArticlesData now stored
  let validExistingArticles := filterExpiredArticles now existingData
  let existingUrls := validExistingArticles.map (·.url)
  let newArticles :=
    (articles.filter fun a => !(existingUrls.contains a.url)).map (addExpirationDate now)
  let mergedArticles := newArticles ++ validExistingArticles
  let limitedArticles := mergedArticles.take MAX_ARTICLES
  (limitedArticles,
   { lastSearchTimestamp := some now
     nextScheduledSearch := some (now + weekMs)
     articlesFound := articles.length
     sourcesSearched := dedupFirst (articles.map (·.source)) })

/-- Articles persisted by a sequence of saveSearchResults runs, each run
carrying its own current time and input list. -/
def runSearches (stored : List Article) : List (Int × List Article) → List Article
  | [] => stored
  | (now, input) :: rest => runSearches (saveSearchResults now stored input).1 rest

/-- Merge-and-save as the specification claim words it: drop expired entries
from the whole existing persisted set (no cap on the read), deduplicate the
input against that surviving set, prepend, truncate, and record the run
metadata.  This is the claim-side definition, to be compared with
saveSearchResults. -/
def specMergeAndSave (now : Int) (stored : List Article) (articles : List Article) :
    List Article × LastSearchData :=
  let surviving := filterExpiredArticles now stored
  let survivingUrls := surviving.map (·.url)
  let newKept :=
    (articles.filter fun a => !(survivingUrls.contains a.url)).map (addExpirationDate now)
  ((newKept ++ surviving).take MAX_ARTICLES,
   { lastSearchTimestamp := some now
     nextScheduledSearch := some (now + weekMs)
     articlesFound := articles.length
     sourcesSearched := dedupFirst (articles.map (·.source)) })

/-- Merge-and-save as amended: identical to the claim-side description
except that the surviving existing set is first capped at MAX_ARTICLES (the
store read is capped, and deduplication and merging work on that capped
surviving set). -/
def specMergeAndSaveCapped (now : Int) (stored : List Article) (articles : List Article) :
    List Article × LastSearchData :=
  let surviving := (filterExpiredArticles now stored).take MAX_ARTICLES
  let survivingUrls := surviving.map (·.url)
  let newKept :=
    (articles.filter fun a => !(survivingUrls.contains a.url)).map (addExpirationDate now)
  ((newKept ++ surviving).take MAX_ARTICLES,
   { lastSearchTimestamp := some now
     nextScheduledSearch := some (now + weekMs)
     articlesFound := articles.length
     sourcesSearched := dedupFirst (articles.map (·.source)) })

end SearchService

/-! ## Stable sort (Array.prototype.sort)

ECMAScript requires Array.prototype.sort to be stable; it is modelled here
as a stable insertion sort: each element is inserted into the sorted rest,
landing before the first element y with le x y (le x y is compare x y ≤ 0),
so elements that compare equal keep their original relative order.  The
SortCompare operation of ECMAScript coerces a NaN comparator result to +0;
the comparator models below apply that coercion. -/

/-- Insert x into l, before the first element y of l such that le x y. -/
def insertStable (le : α → α → Bool) (x : α) : List α → List α
  | [] => [x]
  | y :: ys => if le x y then x :: y :: ys else y :: insertStable le x ys

/-- Stable insertion sort with a boolean comparison le. -/
def sortStable (le : α → α → Bool) : List α → List α
  | [] => []
  | x :: xs => insertStable le x (sortStable le xs)

/-! ## The research pipeline (MedicalResearchAgent route) -/

namespace ResearchRoute

/-- Unified research article record of the MedicalResearchAgent route.
The source's optional fields isPreprint, dateFound and expiresAt are
omitted: the modelled pipeline (adapters, filter, scorer, ranking) never
sets or reads them.  relevanceScore is absent until the scoring stage of
searchAll; adapter output models it as 0. -/
structure ResearchPaper where
  id : String
  source : String
  title : String
  authors : String
  year : String
  abstract : String
  url : String
  isPortuguese : Bool
  hasFullText : Bool
  citationCount : Option Int
  relevanceScore : Int
deriving DecidableEq, Repr

/-- Current year at the modelled run (new Date().getFullYear()). -/
def CURRENT_YEAR : Int := 2025

/-- Lower bound of the date filter (CURRENT_YEAR - 4). -/
def MIN_YEAR : Int := CURRENT_YEAR - 4

/-- Fake sites to exclude. -/
def FAKE_SITES : List String :=
  ["actamedicaportuguesa.com",
   "scielo.pt",
   "revportcardiologia.pt",
   "rpmgf.pt",
   "spmi.pt",
   "ordemdosmedicos.pt",
   "apmc.pt"]

/-- Bilingual relevance keywords of the route (RELEVANT_KEYWORDS). -/
def RELEVANT_KEYWORDS : List String :=
  ["bloodless", "blood conservation", "patient blood management", "pbm",
   "transfusion alternative", "without transfusion", "no transfusion",
   "autologous", "cell salvage", "blood salvage", "cell saver",
   "anemia management", "hemoglobin optimization", "erythropoietin",
   "intraoperative", "perioperative", "preoperative anemia",
   "jehovah witness", "blood refuse", "bloodless surgery",
   "sem sangue", "sem transfusão", "medicina sem sangue",
   "gestão de sangue", "conservação de sangue",
   "alternativa à transfusão", "autóloga", "salvamento de sangue"]

/-- Combined lower-cased text of a title and abstract, as the route builds
it with a template literal.  String.toLower lowers ASCII letters; the
keyword lists are already lower-case, so the model is exact on ASCII and
treats non-ASCII letters as case-sensitive. -/
def combinedText (title abstract : String) : String :=
  (title ++ " " ++ abstract).toLower

/-- Relevance gate isRelevantArticle: the combined text contains at least
one relevance keyword. -/
def isRelevantArticle (title abstract : String) : Bool :=
  RELEVANT_KEYWORDS.any fun keyword =>
    includesStr (combinedText title abstract) keyword.toLower

/-- Relevance score calculateRelevanceScore: one point per keyword of
RELEVANT_KEYWORDS contained in the combined text. -/
def calculateRelevanceScore (title abstract : String) : Int :=
  RELEVANT_KEYWORDS.foldl
    (fun score keyword =>
      if includesStr (combinedText title abstract) keyword.toLower then score + 1
      else score)
    0

/-- Keywords whose presence marks a Portuguese-language article
(detectPortuguese). -/
def PORTUGUESE_DETECT_KEYWORDS : List String :=
  ["medicina", "sangue", "transfusão", "paciente", "tratamento",
   "hospital", "cirurgia", "anemia", "portugal", "saúde"]

/-- Language detection detectPortuguese on the combined lower-cased text. -/
def detectPortuguese (title abstract : String) : Bool :=
  PORTUGUESE_DETECT_KEYWORDS.any fun k =>
    includesStr (combinedText title abstract) k

/-- Host of a URL, as new URL(url).hostname: the text between the scheme
separator and the first slash, query, fragment or port, lower-cased; none
models the URL constructor throwing.  This is a simplified WHATWG parse,
adequate for the absolute http(s) URLs the pipeline builds. -/
def urlHost (url : String) : Option String :=
  match url.splitOn "://" with
  | scheme :: hostpath :: _ =>
    if scheme = "" then none
    else
      let authority := ((hostpath.splitOn "/").headD "")
      let noQuery := ((authority.splitOn "?").headD "")
      let noFrag := ((noQuery.splitOn "#").headD "")
      let host := ((noFrag.splitOn ":").headD "")
      if host = "" then none else some host.toLower
  | _ => none

/-- Removal of the first occurrence of a pattern from a character list
(JavaScript String.replace with a string pattern replaces only the first
occurrence, anywhere in the string). -/
def dropFirstOcc : List Char → List Char → List Char
  | [], _ => []
  | c :: cs, pat =>
    if pat.isPrefixOf (c :: cs) then (c :: cs).drop pat.length
    else c :: dropFirstOcc cs pat

/-- Hostname with its first "www." removed, as hostname.replace applies. -/
def stripWWW (h : String) : String :=
  String.mk (dropFirstOcc h.toList "www.".toList)

/-- Fake-site test isFakeSite: hostname equals, or is a subdomain of, an
entry of FAKE_SITES; an unparseable URL is not fake (the catch branch). -/
def isFakeSite (url : String) : Bool :=
  match urlHost url with
  | none => false
  | some h =>
    let hostname := stripWWW h
    FAKE_SITES.any fun site =>
      hostname = site || hostname.endsWith ("." ++ site)

/-- Year validity filter isValidYear: an absent or empty year passes; a
present year must parse to a value within [MIN_YEAR, CURRENT_YEAR] (parseInt
yielding NaN makes both bound checks false, so the record is dropped). -/
def isValidYear (year : Option String) : Bool :=
  match year with
  | none => true
  | some s =>
    if s = "" then true
    else
      match parseIntJS s with
      | none => false
      | some y => decide (MIN_YEAR ≤ y) && decide (y ≤ CURRENT_YEAR)

/-- Truthiness of the optional citationCount (undefined and 0 are falsy). -/
def ccTruthy (cc : Option Int) : Bool :=
  match cc with
  | none => false
  | some n => n ≠ 0

/-- Value of the optional citationCount where the comparator reads it. -/
def ccVal (cc : Option Int) : Int :=
  match cc with
  | none => 0
  | some n => n

/-- Ranking comparator of searchAll, transcribed: descending
relevanceScore; then Portuguese first; then, when both citation counts are
truthy, descending citationCount; else descending parseInt of the year,
where a NaN difference is the +0 that ECMAScript SortCompare coerces it to. -/
def jsCompare (a b : ResearchPaper) : Int :=
  if b.relevanceScore ≠ a.relevanceScore then b.relevanceScore - a.relevanceScore
  else if a.isPortuguese && !b.isPortuguese then -1
  else if !a.isPortuguese && b.isPortuguese then 1
  else if ccTruthy a.citationCount && ccTruthy b.citationCount then
    ccVal b.citationCount - ccVal a.citationCount
  else
    match parseIntJS b.year, parseIntJS a.year with
    | some yb, some ya => yb - ya
    | _, _ => 0

/-- Ordering induced by the sign of a comparator value. -/
def ordSign (v : Int) : Ordering :=
  if v < 0 then Ordering.lt else if v = 0 then Ordering.eq else Ordering.gt

/-- Ordering the comparator imposes on a pair of articles. -/
def codeOrder (a b : ResearchPaper) : Ordering :=
  ordSign (jsCompare a b)

/-- Ranking of the scored results: Array.prototype.sort with jsCompare,
modelled as a stable sort. -/
def rankSort (l : List ResearchPaper) : List ResearchPaper :=
  sortStable (fun a b => decide (jsCompare a b ≤ 0)) l

/-- Static per-article acceptance of the searchAll result filter: not a
fake site and topically relevant (the parts of the filter that do not
depend on the seen-URL set). -/
def staticAccept (p : ResearchPaper) : Bool :=
  !(isFakeSite p.url) && isRelevantArticle p.title p.abstract

/-- Seen-URL filter of searchAll: walk the merged adapter results, dropping
an article when its url was already kept or it is from a fake site, then
dropping it when not relevant; the url of a kept article joins the seen set. -/
def uniqueResultsAux (seen : List String) : List ResearchPaper → List ResearchPaper
  | [] => []
  | p :: ps =>
    if seen.contains p.url || isFakeSite p.url then uniqueResultsAux seen ps
    else if !(isRelevantArticle p.title p.abstract) then uniqueResultsAux seen ps
    else p :: uniqueResultsAux (p.url :: seen) ps

/-- Seen-URL filter started from the empty seen set. -/
def uniqueResults (l : List ResearchPaper) : List ResearchPaper :=
  uniqueResultsAux [] l

/-- Specification-side deduplicator: keep the head, discard every later
article with the same url, recurse.  This is transparently the
keep-the-first-seen-occurrence-per-url function. -/
def keepFirstByUrl : List ResearchPaper → List ResearchPaper
  | [] => []
  | p :: ps => p :: keepFirstByUrl (ps.filter fun q => decide (q.url ≠ p.url))
termination_by l => l.length
decreasing_by
  simp only [List.length_cons]
  have := List.length_filter_le (fun q => decide (q.url ≠ p.url)) ps
  omega

/-- Scoring stage of searchAll: attach the computed relevance score. -/
def scorePaper (p : ResearchPaper) : ResearchPaper :=
  { p with relevanceScore := calculateRelevanceScore p.title p.abstract }

end ResearchRoute

/-! ## Scorer lemmas and claims C9, C10 -/

namespace ResearchRoute

/-- Counting fold of the scorer equals an initial value plus countP. -/
theorem foldl_count (p : String → Bool) (l : List String) (n : Int) :
    l.foldl (fun s k => if p k then s + 1 else s) n = n + (l.countP p : Int) := by
  induction l generalizing n with
  | nil => simp
  | cons x xs ih =>
    simp only [List.foldl_cons, List.countP_cons, ih]
    cases h : p x
    · simp [h]
    · simp [h]; ring

/-- Relevance score as a countP over the keyword list. -/
theorem calculateRelevanceScore_eq_countP (title abstract : String) :
    calculateRelevanceScore title abstract
      = (RELEVANT_KEYWORDS.countP
          (fun k => includesStr (combinedText title abstract) k.toLower) : Int) := by
  unfold calculateRelevanceScore
  rw [foldl_count]
  simp

/-- Keyword list of the route has no duplicate entries. -/
theorem relevant_keywords_nodup : RELEVANT_KEYWORDS.Nodup := by decide

/-- C9: for every title and snippet, calculateRelevanceScore equals the
number of distinct configured relevance keywords occurring (after
lower-casing) as substrings of the combined title+snippet text, and the
score is non-negative.  Determinism in title+snippet is definitional: the
model is a pure function of exactly those two arguments. -/
theorem C9_relevance_score_distinct_count (title snippet : String) :
    calculateRelevanceScore title snippet
        = ((RELEVANT_KEYWORDS.dedup.filter
            (fun k => includesStr (combinedText title snippet) k.toLower)).length : Int)
      ∧ 0 ≤ calculateRelevanceScore title snippet := by
  constructor
  · rw [calculateRelevanceScore_eq_countP]
    rw [List.dedup_eq_self.mpr relevant_keywords_nodup]
    rw [List.countP_eq_length_filter]
  · rw [calculateRelevanceScore_eq_countP]
    exact Int.ofNat_nonneg _

/-- C10: the relevance gate accepts a title+abstract exactly when the
relevance score is strictly positive. -/
theorem C10_relevance_gate_iff_positive_score (title abstract : String) :
    isRelevantArticle title abstract = true
      ↔ 0 < calculateRelevanceScore title abstract := by
  rw [calculateRelevanceScore_eq_countP]
  unfold isRelevantArticle
  rw [List.any_eq_true]
  constructor
  · rintro ⟨k, hk, hp⟩
    have : 0 < RELEVANT_KEYWORDS.countP
        (fun k => includesStr (combinedText title abstract) k.toLower) :=
      List.countP_pos_iff.mpr ⟨k, hk, hp⟩
    exact_mod_cast this
  · intro h
    have : 0 < RELEVANT_KEYWORDS.countP
        (fun k => includesStr (combinedText title abstract) k.toLower) := by
      exact_mod_cast h
    obtain ⟨k, hk, hp⟩ := List.countP_pos_iff.mp this
    exact ⟨k, hk, hp⟩

end ResearchRoute

/-! ## Comparator claims (C4) -/

namespace ResearchRoute

/-- Year key as the specification claim words it: the extracted publication
year, with an unparseable year treated as year 0. -/
def yearOr0 (p : ResearchPaper) : Int :=
  (parseIntJS p.year).getD 0

/-- Ranking tiers exactly as claim C4 words them: descending relevanceScore;
then Portuguese first; then descending citationCount applied whenever both
citation counts are defined (and skipped otherwise), with a tie falling to
the next tier; then descending year with an unparseable year treated as 0. -/
def claimOrder (a b : ResearchPaper) : Ordering :=
  if a.relevanceScore ≠ b.relevanceScore then
    (if b.relevanceScore < a.relevanceScore then Ordering.lt else Ordering.gt)
  else if a.isPortuguese ≠ b.isPortuguese then
    (if a.isPortuguese then Ordering.lt else Ordering.gt)
  else if a.citationCount.isSome && b.citationCount.isSome then
    (if ccVal b.citationCount < ccVal a.citationCount then Ordering.lt
     else if ccVal a.citationCount < ccVal b.citationCount then Ordering.gt
     else if yearOr0 b < yearOr0 a then Ordering.lt
     else if yearOr0 a < yearOr0 b then Ordering.gt
     else Ordering.eq)
  else
    (if yearOr0 b < yearOr0 a then Ordering.lt
     else if yearOr0 a < yearOr0 b then Ordering.gt
     else Ordering.eq)

/-- Ranking tiers as the code actually implements them: descending
relevanceScore; then Portuguese first; then, only when both citation counts
are defined AND nonzero (JavaScript truthiness), descending citationCount
with a tie final (the comparator returns 0 without consulting the year);
otherwise descending parsed year when both years parse, and a tie (the
NaN-to-+0 coercion of SortCompare) when either year is unparseable. -/
def rankOrder (a b : ResearchPaper) : Ordering :=
  if a.relevanceScore ≠ b.relevanceScore then
    (if b.relevanceScore < a.relevanceScore then Ordering.lt else Ordering.gt)
  else if a.isPortuguese ≠ b.isPortuguese then
    (if a.isPortuguese then Ordering.lt else Ordering.gt)
  else if ccTruthy a.citationCount && ccTruthy b.citationCount then
    (if ccVal b.citationCount < ccVal a.citationCount then Ordering.lt
     else if ccVal a.citationCount < ccVal b.citationCount then Ordering.gt
     else Ordering.eq)
  else
    match parseIntJS a.year, parseIntJS b.year with
    | some ya, some yb =>
      if yb < ya then Ordering.lt else if ya < yb then Ordering.gt else Ordering.eq
    | _, _ => Ordering.eq

/-- Article with a defined citation count of zero, used to separate the
claimed tiers from the implemented ones. -/
def paperCcZero : ResearchPaper :=
  { id := "a", source := "Semantic Scholar", title := "t1", authors := "x"
    year := "2024", abstract := "s", url := "https://example.org/a"
    isPortuguese := false, hasFullText := false
    citationCount := some 0, relevanceScore := 0 }

/-- Article with a defined citation count of five, otherwise tied with
paperCcZero on every claimed key. -/
def paperCcFive : ResearchPaper :=
  { id := "b", source := "Semantic Scholar", title := "t2", authors := "y"
    year := "2024", abstract := "s", url := "https://example.org/b"
    isPortuguese := false, hasFullText := false
    citationCount := some 5, relevanceScore := 0 }

/-- C4 counterexample: both articles carry a defined citation count (0 and
5), so the claimed tiers order the five-citation article first, but the
code comparator treats the zero count as falsy, skips the citation tier,
and declares the pair equal via the year tier.  The claim is false as
stated. -/
theorem C4_counterexample :
    codeOrder paperCcZero paperCcFive ≠ claimOrder paperCcZero paperCcFive := by
  decide

/-- C4 amended: the code's induced ordering equals the tier description
corrected in three points forced by the code: the citation tier fires only
when both citation counts are defined and nonzero; when it fires, a
citation tie is final (the year is not consulted); and the year tier
compares parsed years only, treating a pair with an unparseable year as
tied rather than as year 0. -/
theorem C4_ranking_comparator_tiers (a b : ResearchPaper) :
    codeOrder a b = rankOrder a b := by
  have hsub : ∀ x y : Int, ordSign (x - y)
      = if x < y then Ordering.lt else if y < x then Ordering.gt else Ordering.eq := by
    intro x y
    unfold ordSign
    split_ifs <;> first | rfl | omega
  unfold codeOrder jsCompare rankOrder
  by_cases h1 : b.relevanceScore = a.relevanceScore
  · have e1 : (b.relevanceScore ≠ a.relevanceScore) = False := by simp [h1]
    have e2 : (a.relevanceScore ≠ b.relevanceScore) = False := by simp [h1]
    simp only [e1, e2, if_false]
    cases hpa : a.isPortuguese <;> cases hpb : b.isPortuguese <;>
      cases hca : ccTruthy a.citationCount <;> cases hcb : ccTruthy b.citationCount <;>
      rcases hA : parseIntJS a.year with _ | ya <;>
      rcases hB : parseIntJS b.year with _ | yb <;>
      simp only [hpa, hpb, hca, hcb, hA, hB] <;>
      (try simp) <;>
      first
      | decide
      | (rw [hsub])
  · have e1 : (b.relevanceScore ≠ a.relevanceScore) = True := by simp [h1]
    have e2 : (a.relevanceScore ≠ b.relevanceScore) = True := by
      simp only [ne_eq, eq_iff_iff, iff_true]
      omega
    simp only [e1, e2, if_true]
    rw [hsub]
    split_ifs <;> first | rfl | omega

end ResearchRoute

/-! ## Stability of the ranking (C5) -/

/-- Filtered view of a stable insertion: an element satisfying p that is
never strictly after any p-element lands in front of every p-element. -/
theorem filter_insertStable_pos (le : α → α → Bool) (p : α → Bool) (x : α) (m : List α)
    (hx : p x = true) (hle : ∀ y, p y = true → le x y = true) :
    (insertStable le x m).filter p = x :: m.filter p := by
  induction m with
  | nil => simp [insertStable, hx]
  | cons y ys ih =>
    unfold insertStable
    by_cases h : le x y = true
    · rw [if_pos h]
      simp [List.filter_cons, hx]
    · rw [if_neg h]
      have hpy : p y = false := by
        cases hpy : p y
        · rfl
        · exact absurd (hle y hpy) h
      simp [List.filter_cons, hpy, ih]

/-- Filtered view of a stable insertion of an element not satisfying p: the
p-elements are untouched. -/
theorem filter_insertStable_neg (le : α → α → Bool) (p : α → Bool) (x : α) (m : List α)
    (hx : p x = false) :
    (insertStable le x m).filter p = m.filter p := by
  induction m with
  | nil => simp [insertStable, hx]
  | cons y ys ih =>
    unfold insertStable
    by_cases h : le x y = true
    · rw [if_pos h]
      simp [List.filter_cons, hx]
    · rw [if_neg h]
      simp [List.filter_cons, ih]

/-- Stability of the modelled sort: the subsequence of elements of any
class on which le holds both ways (p-elements are mutually le) is preserved
verbatim by sorting. -/
theorem filter_sortStable (le : α → α → Bool) (p : α → Bool)
    (hcl : ∀ x y, p x = true → p y = true → le x y = true) (l : List α) :
    (sortStable le l).filter p = l.filter p := by
  induction l with
  | nil => rfl
  | cons x xs ih =>
    unfold sortStable
    cases hx : p x
    · rw [filter_insertStable_neg le p x _ hx, ih]
      simp [List.filter_cons, hx]
    · rw [filter_insertStable_pos le p x _ hx (fun y hy => hcl x y hx hy), ih]
      simp [List.filter_cons, hx]

namespace ResearchRoute

/-- Identical ranking keys, as claim C5 lists them: same relevance score,
same Portuguese flag, same citation count, same extracted year. -/
def sameKeys (x y : ResearchPaper) : Bool :=
  x.relevanceScore == y.relevanceScore && x.isPortuguese == y.isPortuguese &&
    x.citationCount == y.citationCount && parseIntJS x.year == parseIntJS y.year

/-- Articles with identical ranking keys compare as equal. -/
theorem sameKeys_compare_zero {x y : ResearchPaper} (h : sameKeys x y = true) :
    jsCompare x y = 0 := by
  unfold sameKeys at h
  simp only [Bool.and_eq_true, beq_iff_eq] at h
  obtain ⟨⟨⟨hrs, hpt⟩, hcc⟩, hyr⟩ := h
  unfold jsCompare
  rw [hrs, hpt, hcc, hyr]
  simp only [ne_eq, not_true_eq_false, if_false, Bool.and_not_self, Bool.not_and_self,
    sub_self, ite_self]
  cases hct : ccTruthy y.citationCount
  · simp only [hct, Bool.and_self, if_false]
    rcases hy : parseIntJS y.year with _ | v <;> simp [hy]
  · simp [hct]

/-- Key-identity is transferred through a common reference article. -/
theorem sameKeys_of {x y k : ResearchPaper} (hx : sameKeys x k = true)
    (hy : sameKeys y k = true) : sameKeys x y = true := by
  unfold sameKeys at hx hy ⊢
  simp only [Bool.and_eq_true, beq_iff_eq] at hx hy ⊢
  obtain ⟨⟨⟨h1, h2⟩, h3⟩, h4⟩ := hx
  obtain ⟨⟨⟨g1, g2⟩, g3⟩, g4⟩ := hy
  exact ⟨⟨⟨h1.trans g1.symm, h2.trans g2.symm⟩, h3.trans g3.symm⟩, h4.trans g4.symm⟩

/-- C5: the ranking is stable.  Array.prototype.sort is required by
ECMAScript to be a stable sort and is modelled as one; for every input
list, the subsequence of articles whose ranking keys (relevance score,
Portuguese flag, citation count, extracted year) all equal those of any
fixed reference article is returned by the ranking in its original order,
so two key-identical articles keep their relative input order. -/
theorem C5_ranking_stable (l : List ResearchPaper) (k : ResearchPaper) :
    (rankSort l).filter (fun x => sameKeys x k)
      = l.filter (fun x => sameKeys x k) := by
  unfold rankSort
  apply filter_sortStable
  intro x y hx hy
  have hxy : sameKeys x y = true := sameKeys_of hx hy
  have h0 : jsCompare x y = 0 := sameKeys_compare_zero hxy
  simp [h0]

end ResearchRoute

/-! ## Deduplicator claims (C7) -/

namespace ResearchRoute

/-- Membership in the first-seen deduplication: every output element comes
from the input. -/
theorem mem_of_mem_keepFirstByUrl (q : ResearchPaper) (m : List ResearchPaper) :
    q ∈ keepFirstByUrl m → q ∈ m := by
  induction m using keepFirstByUrl.induct with
  | case1 =>
    intro h
    simp [keepFirstByUrl] at h
  | case2 p ps ih =>
    intro h
    rw [keepFirstByUrl] at h
    rcases List.mem_cons.mp h with h | h
    · simp [h]
    · exact List.mem_cons_of_mem _ (List.mem_of_mem_filter (ih h))

/-- Urls in the first-seen deduplication output are pairwise distinct. -/
theorem nodup_keepFirstByUrl (m : List ResearchPaper) :
    ((keepFirstByUrl m).map (·.url)).Nodup := by
  induction m using keepFirstByUrl.induct with
  | case1 => simp [keepFirstByUrl]
  | case2 p ps ih =>
    rw [keepFirstByUrl]
    simp only [List.map_cons, List.nodup_cons]
    refine ⟨?_, ih⟩
    intro hmem
    obtain ⟨q, hq, hqu⟩ := List.mem_map.mp hmem
    have hq2 := mem_of_mem_keepFirstByUrl q _ hq
    have := List.of_mem_filter hq2
    simp only [decide_eq_true_eq] at this
    exact this hqu

/-- First-seen deduplication of a list with pairwise-distinct urls is the
identity. -/
theorem keepFirstByUrl_of_nodup (m : List ResearchPaper)
    (h : (m.map (·.url)).Nodup) : keepFirstByUrl m = m := by
  induction m with
  | nil => simp [keepFirstByUrl]
  | cons p ps ih =>
    simp only [List.map_cons, List.nodup_cons] at h
    have hfe : ps.filter (fun q => decide (q.url ≠ p.url)) = ps := by
      rw [List.filter_eq_self]
      intro q hq
      simp only [decide_eq_true_eq]
      intro hqu
      exact h.1 (List.mem_map.mpr ⟨q, hq, hqu⟩)
    rw [keepFirstByUrl, hfe, ih h.2]

/-- Result filter of searchAll, characterized: it filters by the static
per-article checks (fake site, relevance) and keeps the first-seen article
per url, urls already in the seen set being dropped. -/
theorem uniqueResultsAux_eq (seen : List String) (l : List ResearchPaper) :
    uniqueResultsAux seen l
      = keepFirstByUrl
          (l.filter fun q => staticAccept q && !(seen.contains q.url)) := by
  induction l generalizing seen with
  | nil => simp [uniqueResultsAux, keepFirstByUrl]
  | cons p ps ih =>
    rw [uniqueResultsAux]
    simp only [List.filter_cons]
    by_cases hs : seen.contains p.url = true
    · rw [if_pos (by rw [hs]; simp)]
      have hcond : (staticAccept p && !(seen.contains p.url)) = false := by
        rw [hs]
        simp
      rw [hcond]
      simp only [Bool.false_eq_true, if_false]
      exact ih seen
    · have hs2 : seen.contains p.url = false := Bool.eq_false_iff.mpr hs
      by_cases hf : isFakeSite p.url = true
      · rw [if_pos (by rw [hf]; simp)]
        have hcond : (staticAccept p && !(seen.contains p.url)) = false := by
          unfold staticAccept
          rw [hf]
          simp
        rw [hcond]
        simp only [Bool.false_eq_true, if_false]
        exact ih seen
      · have hf2 : isFakeSite p.url = false := Bool.eq_false_iff.mpr hf
        rw [if_neg (by rw [hs2, hf2]; simp)]
        by_cases hr : isRelevantArticle p.title p.abstract = true
        · rw [if_neg (by simp [hr])]
          have hcond : (staticAccept p && !(seen.contains p.url)) = true := by
            unfold staticAccept
            rw [hf2, hr, hs2]
            rfl
          rw [hcond]
          simp only [eq_self_iff_true, if_true]
          rw [keepFirstByUrl, ih (p.url :: seen)]
          congr 2
          rw [List.filter_filter]
          apply List.filter_congr
          intro q hq
          rw [List.contains_cons]
          by_cases hqu : q.url = p.url
          · have hb : (q.url == p.url) = true := by simp [hqu]
            have hd : decide (q.url ≠ p.url) = false := by simp [hqu]
            rw [hb, hd]
            simp
          · have hb : (q.url == p.url) = false := beq_eq_false_iff_ne.mpr hqu
            have hd : decide (q.url ≠ p.url) = true := by simp [hqu]
            rw [hb, hd]
            simp [Bool.and_comm]
        · have hr2 : isRelevantArticle p.title p.abstract = false := Bool.eq_false_iff.mpr hr
          rw [if_pos (by simp [hr2])]
          have hcond : (staticAccept p && !(seen.contains p.url)) = false := by
            unfold staticAccept
            rw [hr2]
            simp
          rw [hcond]
          simp only [Bool.false_eq_true, if_false]
          exact ih seen

/-- Result filter of searchAll from the empty seen set: the static filter
followed by first-seen per-url deduplication. -/
theorem uniqueResults_eq (l : List ResearchPaper) :
    uniqueResults l = keepFirstByUrl (l.filter staticAccept) := by
  unfold uniqueResults
  rw [uniqueResultsAux_eq]
  congr 1
  apply List.filter_congr
  intro q hq
  simp

/-- C7: the seen-URL deduplicating filter of searchAll is idempotent, its
output has at most one article per distinct url, and it equals the static
accept filter followed by the keep-the-first-seen-occurrence-per-url
deduplication (later duplicates are discarded). -/
theorem C7_dedup_idempotent_first_seen (l : List ResearchPaper) :
    uniqueResults (uniqueResults l) = uniqueResults l
      ∧ ((uniqueResults l).map (·.url)).Nodup
      ∧ uniqueResults l = keepFirstByUrl (l.filter staticAccept) := by
  refine ⟨?_, ?_, uniqueResults_eq l⟩
  · rw [uniqueResults_eq l, uniqueResults_eq]
    have hall : (keepFirstByUrl (l.filter staticAccept)).filter staticAccept
        = keepFirstByUrl (l.filter staticAccept) := by
      rw [List.filter_eq_self]
      intro q hq
      exact List.of_mem_filter (mem_of_mem_keepFirstByUrl q _ hq)
    rw [hall]
    exact keepFirstByUrl_of_nodup _ (nodup_keepFirstByUrl _)
  · rw [uniqueResults_eq l]
    exact nodup_keepFirstByUrl _

end ResearchRoute

/-! ## Lifecycle store claims (C1, C2, C3, C8) -/

namespace SearchService

/-- Conversion from a false contains test to non-membership. -/
theorem not_mem_of_contains_false {l : List String} {s : String}
    (h : l.contains s = false) : s ∉ l := by
  intro hm
  rw [show l.contains s = List.elem s l from rfl, List.elem_iff.mpr hm] at h
  simp at h

/-- Membership transfer out of a take. -/
theorem mem_of_mem_takePrefix {l : List α} {n : Nat} {a : α} (h : a ∈ l.take n) :
    a ∈ l :=
  (List.take_sublist n l).subset h

/-- Expiry filtering is idempotent across the capping slice: re-filtering
the capped filtered view changes nothing. -/
theorem filterExpired_take_filterExpired (now : Int) (s : List Article) (n : Nat) :
    filterExpiredArticles now ((filterExpiredArticles now s).take n)
      = (filterExpiredArticles now s).take n := by
  unfold filterExpiredArticles
  rw [List.filter_eq_self]
  intro a ha
  have ha2 : a ∈ List.filter
      (fun a => match a.expiresAt with | none => false | some e => decide (now < e)) s :=
    mem_of_mem_takePrefix ha
  have ha3 := List.of_mem_filter ha2
  exact ha3

/-- C2: after any sequence of merge-and-save runs from any persisted state,
a store read returns at most MAX_ARTICLES articles (the read slices the
filtered view to the cap). -/
theorem C2_cap_invariant (stored : List Article) (runs : List (Int × List Article))
    (now : Int) :
    (readArticlesData now (runSearches stored runs)).length ≤ MAX_ARTICLES := by
  unfold readArticlesData
  rw [List.length_take]
  exact min_le_left _ _

/-- C3: a store read never returns an expired article nor a record lacking
expiresAt (the read's self-healing re-persist writes exactly the returned
list, so legacy records are not re-persisted by it), and every article
persisted by the next merge-and-save carries an expiresAt. -/
theorem C3_no_expired_no_legacy (now : Int) (stored : List Article) :
    (∀ a ∈ readArticlesData now stored, ∃ e, a.expiresAt = some e ∧ now < e)
      ∧ ∀ (input : List Article), ∀ a ∈ (saveSearchResults now stored input).1,
          a.expiresAt.isSome := by
  constructor
  · intro a ha
    have hmem : a ∈ filterExpiredArticles now stored :=
      mem_of_mem_takePrefix ha
    have hp := List.of_mem_filter hmem
    rcases he : a.expiresAt with _ | e
    · rw [he] at hp
      simp at hp
    · rw [he] at hp
      exact ⟨e, rfl, of_decide_eq_true hp⟩
  · intro input a ha
    simp only [saveSearchResults] at ha
    have ha2 := mem_of_mem_takePrefix ha
    rcases List.mem_append.mp ha2 with h | h
    · obtain ⟨b, _, hb⟩ := List.mem_map.mp h
      rw [← hb]
      simp [addExpirationDate]
    · have hp := List.of_mem_filter h
      rcases he : a.expiresAt with _ | e
      · rw [he] at hp
        simp at hp
      · simp [he]

/-- Stored state of sixteen valid articles with distinct urls, exceeding
the MAX_ARTICLES cap. -/
def storedSixteen : List Article :=
  (List.range 16).map fun i =>
    { id := toString i, title := "t", url := "u" ++ toString i, source := "s"
      snippet := "", publicationDate := none, dateFound := some 0
      expiresAt := some 1000 }

/-- Incoming run with one article whose url duplicates the sixteenth
stored article (the one beyond the cap). -/
def inputDupSixteenth : List Article :=
  [{ id := "n", title := "t", url := "u15", source := "s", snippet := ""
     publicationDate := none, dateFound := some 0, expiresAt := none }]

/-- C1 counterexample: on a persisted state holding sixteen valid articles,
the code deduplicates the input against the capped read (first fifteen
survivors), so an input article whose url matches the sixteenth survivor is
treated as new and prepended, while the claim's description (dedup against
the whole surviving set) would drop it.  The two disagree at this input. -/
theorem C1_counterexample :
    saveSearchResults 0 storedSixteen inputDupSixteenth
      ≠ specMergeAndSave 0 storedSixteen inputDupSixteenth := by
  decide

/-- C1 amended: merge-and-save behaves exactly as claimed except that the
surviving existing set is the capped read (expiry filter then truncation to
MAX_ARTICLES): the input is deduplicated against that capped surviving set,
survivors are stamped with expiration dates and prepended ahead of it, the
result is truncated to MAX_ARTICLES and persisted, and the last-search
record gets articlesFound = length of the input run list and
sourcesSearched = the distinct sources of the input in first-seen order. -/
theorem C1_merge_and_save (now : Int) (stored : List Article)
    (articles : List Article) :
    saveSearchResults now stored articles
      = specMergeAndSaveCapped now stored articles := by
  simp only [saveSearchResults, specMergeAndSaveCapped, readArticlesData,
    filterExpired_take_filterExpired]

/-- Two distinct incoming articles sharing one url. -/
def dupUrlA : Article :=
  { id := "1", title := "t", url := "udup", source := "s", snippet := ""
    publicationDate := none, dateFound := some 0, expiresAt := none }

/-- Second incoming article with the same url as dupUrlA. -/
def dupUrlB : Article :=
  { dupUrlA with id := "2" }

/-- C8 counterexample: an input run that itself repeats a url is only
deduplicated against the existing persisted set, not within itself, so both
copies are persisted and the persisted collection holds two articles with
the same url.  The claim is false for inputs with repeated urls. -/
theorem C8_counterexample :
    ¬ (((saveSearchResults 0 [] [dupUrlA, dupUrlB]).1.map (·.url)).Nodup) := by
  decide

/-- C8 amended: whenever the existing persisted articles have pairwise
distinct urls and the input run has pairwise distinct urls (as performSearch
guarantees by its own per-run url dedup), the persisted collection after
merge-and-save has pairwise distinct urls. -/
theorem C8_no_duplicate_urls (now : Int) (stored input : List Article)
    (hstored : (stored.map (·.url)).Nodup)
    (hinput : (input.map (·.url)).Nodup) :
    (((saveSearchResults now stored input).1).map (·.url)).Nodup := by
  simp only [saveSearchResults, readArticlesData]
  rw [List.map_take]
  apply List.Nodup.sublist (List.take_sublist _ _)
  rw [List.map_append]
  have hvalid : ((filterExpiredArticles now
      ((filterExpiredArticles now stored).take MAX_ARTICLES)).map (·.url)).Nodup := by
    apply List.Nodup.sublist _ hstored
    apply List.Sublist.map
    exact ((List.filter_sublist _).trans (List.take_sublist _ _)).trans
      (List.filter_sublist _)
  have hnewurls : ∀ (l : List Article),
      (l.map (addExpirationDate now)).map (·.url) = l.map (·.url) := by
    intro l
    rw [List.map_map]
    rfl
  apply List.Nodup.append
  · rw [hnewurls]
    apply List.Nodup.sublist _ hinput
    exact List.Sublist.map _ (List.filter_sublist _)
  · exact hvalid
  · rw [hnewurls]
    intro u hu hv
    obtain ⟨a, ha, hau⟩ := List.mem_map.mp hu
    have hpred := List.of_mem_filter ha
    have hfalse : ((filterExpiredArticles now
        ((filterExpiredArticles now stored).take MAX_ARTICLES)).map (·.url)).contains a.url
          = false := by
      cases hc : ((filterExpiredArticles now
          ((filterExpiredArticles now stored).take MAX_ARTICLES)).map (·.url)).contains a.url
      · rfl
      · rw [hc] at hpred
        simp at hpred
    exact not_mem_of_contains_false hfalse (hau ▸ hv)

end SearchService

/-! ## Source adapters and the aggregation (C6)

Each adapter is a total function from the observed outcome of its outbound
request(s) to a list of articles.  A thrown fetch error, a thrown JSON
parse (malformed payload) or a timeout is the err outcome; a non-2xx
response is the notOk outcome; ok carries the parsed payload.  The
generated per-article id (Date.now plus a random suffix) is never read by
the pipeline and is modelled by a fixed placeholder string. -/

/-- Outcome of one outbound network request. -/
inductive FetchOutcome (α : Type) where
  | err : FetchOutcome α
  | notOk : FetchOutcome α
  | ok : α → FetchOutcome α
deriving DecidableEq

/-- Placeholder for generateId(): an opaque identifier the pipeline never
reads. -/
def generatedId : String := "generated-id"

/-- JavaScript substring(0, n). -/
def stringTake (n : Nat) (s : String) : String :=
  String.mk (s.toList.take n)

/-- JavaScript a || b on two possibly-undefined strings, propagating
undefined when both are falsy. -/
def jsOrOpt (a b : Option String) : Option String :=
  match a with
  | none => b
  | some s => if s = "" then b else some s

namespace ResearchRoute

/-- Raw Europe PMC result record (the fields the route reads). -/
structure EPMCRecord where
  title : Option String
  authorString : Option String
  abstractText : Option String
  pubYear : Option String
  doi : Option String
  pmid : Option String
  isOpenAccess : Option String
  pmcid : Option String
deriving DecidableEq

/-- Europe PMC adapter fetchEuropePMC: errors and non-OK responses yield
the empty list; otherwise records passing the year filter are normalized. -/
def fetchEuropePMC (query : String) (resp : FetchOutcome (List EPMCRecord)) :
    List ResearchPaper :=
  match resp with
  | .err => []
  | .notOk => []
  | .ok results =>
    (results.filter fun r => isValidYear r.pubYear).map fun r =>
      { id := generatedId
        source := "Europe PMC"
        title := jsOr r.title "Untitled"
        authors := jsOr r.authorString "Unknown authors"
        year := jsOr r.pubYear ""
        abstract := jsOr r.abstractText "Resumo não disponível."
        url :=
          if strTruthy r.doi then "https://doi.org/" ++ jsInterp r.doi
          else "https://europepmc.org/article/med/" ++ jsInterp r.pmid
        isPortuguese := detectPortuguese (jsInterp r.title) (jsInterp r.abstractText)
        hasFullText := (r.isOpenAccess == some "Y") || strTruthy r.pmcid
        citationCount := none
        relevanceScore := 0 }

/-- Raw Semantic Scholar result record; the author list is modelled at the
level of the joined author-name string the route builds. -/
structure SSRecord where
  title : Option String
  abstract : Option String
  year : Option Int
  url : Option String
  citationCount : Option Int
  openAccessPdfUrl : Option String
  paperId : Option String
  authorsJoined : Option String
deriving DecidableEq

/-- Semantic Scholar adapter fetchSemanticScholar. -/
def fetchSemanticScholar (query : String) (resp : FetchOutcome (List SSRecord)) :
    List ResearchPaper :=
  match resp with
  | .err => []
  | .notOk => []
  | .ok results =>
    (results.filter fun r => isValidYear (r.year.map toString)).map fun r =>
      { id := generatedId
        source := "Semantic Scholar"
        title := jsOr r.title "Untitled"
        authors := jsOr r.authorsJoined "Unknown authors"
        year := jsOr (r.year.map toString) ""
        abstract := jsOr r.abstract "Resumo não disponível."
        url := jsOr r.openAccessPdfUrl
          (jsOr r.url ("https://semanticscholar.org/paper/" ++ jsInterp r.paperId))
        isPortuguese := detectPortuguese (jsInterp r.title) (jsInterp r.abstract)
        hasFullText := strTruthy r.openAccessPdfUrl
        citationCount := some (r.citationCount.getD 0)
        relevanceScore := 0 }

/-- Per-uid PubMed esummary record (fields the route reads). -/
structure PMSummary where
  title : Option String
  pubdate : Option String
  authorsJoined : Option String
deriving DecidableEq

/-- Parsed esummary payload: the uids list and the per-uid records; a uid
whose record is absent or not an object maps to none. -/
structure PMSummaryPayload where
  uids : List String
  records : List (String × Option PMSummary)
deriving DecidableEq

/-- PubMed adapter fetchPubMed: a three-step esearch/esummary/efetch
pipeline.  A failed esearch or esummary (or a thrown efetch) yields the
empty list; an empty id list yields the empty list; a non-OK efetch only
degrades the abstracts to their default text.  The regex extraction of
per-article PMID/abstract pairs from the efetch XML is modelled as the
resulting finite map. -/
def fetchPubMed (query : String) (search : FetchOutcome (List String))
    (summary : FetchOutcome PMSummaryPayload)
    (efetch : FetchOutcome (List (String × String))) : List ResearchPaper :=
  match search with
  | .err => []
  | .notOk => []
  | .ok ids =>
    if ids.isEmpty then []
    else
      match summary with
      | .err => []
      | .notOk => []
      | .ok payload =>
        match efetch with
        | .err => []
        | other =>
          let abstractMap : List (String × String) :=
            match other with
            | .ok m => m
            | _ => []
          (payload.uids.filterMap fun uid =>
            match (List.lookup uid payload.records).join with
            | none => none
            | some r =>
              let yearStr := jsOr (r.pubdate.map fun s => (s.splitOn " ").headD "") ""
              let abstract := jsOr (List.lookup uid abstractMap) "Resumo disponível no link."
              some { id := generatedId
                     source := "PubMed"
                     title := jsOr r.title "Untitled"
                     authors := jsOr r.authorsJoined "Unknown authors"
                     year := yearStr
                     abstract := abstract
                     url := "https://pubmed.ncbi.nlm.nih.gov/" ++ uid ++ "/"
                     isPortuguese := detectPortuguese (jsInterp r.title) abstract
                     hasFullText := false
                     citationCount := none
                     relevanceScore := 0 }).filter fun p => isValidYear (some p.year)

/-- Raw DOAJ result record (nested bibjson fields flattened to the ones
the route reads). -/
structure DOAJRecord where
  title : Option String
  abstract : Option String
  authorsJoined : Option String
  year : Option String
  linkUrl : Option String
  publisherCountry : Option String
  itemId : Option String
deriving DecidableEq

/-- DOAJ adapter fetchDOAJ; it applies no year filter. -/
def fetchDOAJ (query : String) (resp : FetchOutcome (List DOAJRecord)) :
    List ResearchPaper :=
  match resp with
  | .err => []
  | .notOk => []
  | .ok results =>
    results.map fun item =>
      { id := generatedId
        source := "DOAJ"
        title := jsOr item.title "Untitled"
        authors := jsOr item.authorsJoined "Unknown authors"
        year := jsOr item.year ""
        abstract := jsOr (item.abstract.map (stringTake 500)) "Resumo não disponível."
        url := jsOr item.linkUrl ("https://doaj.org/article/" ++ jsInterp item.itemId)
        isPortuguese := (item.publisherCountry == some "PT")
          || detectPortuguese (jsInterp item.title) (jsInterp item.abstract)
        hasFullText := true
        citationCount := none
        relevanceScore := 0 }

/-- Observed outcomes of the outbound requests of one searchAll run. -/
structure SearchEnv where
  epmc : FetchOutcome (List EPMCRecord)
  semanticScholar : FetchOutcome (List SSRecord)
  pubmedSearch : FetchOutcome (List String)
  pubmedSummary : FetchOutcome PMSummaryPayload
  pubmedEfetch : FetchOutcome (List (String × String))
  doaj : FetchOutcome (List DOAJRecord)

/-- Orchestrator searchAll: concatenate the four adapters' results in their
fixed priority order, apply the seen-URL/fake-site/relevance filter, attach
relevance scores, and rank. -/
def searchAll (query : String) (env : SearchEnv) : List ResearchPaper :=
  rankSort
    ((uniqueResults
        (fetchEuropePMC query env.epmc
          ++ fetchSemanticScholar query env.semanticScholar
          ++ fetchPubMed query env.pubmedSearch env.pubmedSummary env.pubmedEfetch
          ++ fetchDOAJ query env.doaj)).map scorePaper)

end ResearchRoute

/-! ## The weekly route's PubMed adapter (searchPubMed) -/

namespace WeeklyRoute

/-- Current year at the modelled run. -/
def CURRENT_YEAR_W : Int := 2025

/-- Lower bound of the weekly route's date filter. -/
def MIN_YEAR_W : Int := CURRENT_YEAR_W - 4

/-- Article record of the weekly search route. -/
structure ArticleW where
  id : String
  title : String
  url : String
  source : String
  snippet : String
  publicationDate : Option String
  dateFound : Int
  language : String
  isPortuguese : Bool
deriving DecidableEq

/-- Per-article block of the efetch XML, modelled as the optional first
regex match of each extracted tag. -/
structure PubMedBlock where
  title : Option String
  abstract : Option String
  pmid : Option String
  year : Option String
  medline : Option String
deriving DecidableEq

/-- First run of four consecutive decimal digits in a character list, as
matched by the regex for a four-digit year. -/
def firstFourDigitRun : List Char → Option Nat
  | [] => none
  | c :: cs =>
    let four := (c :: cs).take 4
    if four.length = 4 && four.all (·.isDigit) then some (digitsToNat four)
    else firstFourDigitRun cs

/-- Year extraction extractYear of the weekly route: the first four-digit
run of the date string, none for an absent date or no match. -/
def extractYear (dateStr : Option String) : Option Int :=
  match dateStr with
  | none => none
  | some s => (firstFourDigitRun s.toList).map fun n => (n : Int)

/-- Weekly-route PubMed adapter searchPubMed: esearch for ids then efetch
of the article XML; any error or non-OK response yields the empty list, an
empty id list yields the empty list; blocks lacking a PMID or title are
skipped; a parsed year outside the window (when truthy) skips the block. -/
def searchPubMed (query : String) (now : Int)
    (search : FetchOutcome (List String))
    (efetch : FetchOutcome (List PubMedBlock)) : List ArticleW :=
  match search with
  | .err => []
  | .notOk => []
  | .ok ids =>
    if ids.isEmpty then []
    else
      match efetch with
      | .err => []
      | .notOk => []
      | .ok blocks =>
        blocks.filterMap fun b =>
          match b.pmid, b.title with
          | some pmid, some title =>
            let pubDate := jsOrOpt b.year b.medline
            let year := extractYear pubDate
            let skip :=
              match year with
              | none => false
              | some y => (y != 0) && (decide (y < MIN_YEAR_W) || decide (y > CURRENT_YEAR_W))
            if skip then none
            else
              some { id := generatedId
                     title := title
                     url := "https://pubmed.ncbi.nlm.nih.gov/" ++ pmid ++ "/"
                     source := "pubmed.ncbi.nlm.nih.gov"
                     snippet := jsOr (b.abstract.map (stringTake 300)) ""
                     publicationDate := pubDate
                     dateFound := now
                     language := "en"
                     isPortuguese := false }
          | _, _ => none

end WeeklyRoute

/-- C6: every modelled source adapter is a total function of the observed
request outcomes and never propagates an error: a thrown fetch/parse error
(err), a non-OK response (notOk) and a zero-match payload each yield the
empty list, at every stage of the multi-step PubMed adapters; and the
aggregation is isolated from a failing adapter: a searchAll run whose
Europe PMC request fails equals the run in which that adapter contributes
nothing, i.e. it still returns exactly the (filtered, scored, ranked)
results contributed by the other three adapters. -/
theorem C6_adapter_failure_isolation :
    (∀ q : String,
        ResearchRoute.fetchEuropePMC q FetchOutcome.err = []
      ∧ ResearchRoute.fetchEuropePMC q FetchOutcome.notOk = []
      ∧ ResearchRoute.fetchEuropePMC q (FetchOutcome.ok []) = [])
  ∧ (∀ q : String,
        ResearchRoute.fetchSemanticScholar q FetchOutcome.err = []
      ∧ ResearchRoute.fetchSemanticScholar q FetchOutcome.notOk = []
      ∧ ResearchRoute.fetchSemanticScholar q (FetchOutcome.ok []) = [])
  ∧ (∀ (q : String) (summary : FetchOutcome ResearchRoute.PMSummaryPayload)
        (efetch : FetchOutcome (List (String × String))),
        ResearchRoute.fetchPubMed q FetchOutcome.err summary efetch = []
      ∧ ResearchRoute.fetchPubMed q FetchOutcome.notOk summary efetch = []
      ∧ ResearchRoute.fetchPubMed q (FetchOutcome.ok []) summary efetch = [])
  ∧ (∀ (q : String) (ids : List String)
        (efetch : FetchOutcome (List (String × String))),
        ResearchRoute.fetchPubMed q (FetchOutcome.ok ids) FetchOutcome.err efetch = []
      ∧ ResearchRoute.fetchPubMed q (FetchOutcome.ok ids) FetchOutcome.notOk efetch = [])
  ∧ (∀ q : String,
        ResearchRoute.fetchDOAJ q FetchOutcome.err = []
      ∧ ResearchRoute.fetchDOAJ q FetchOutcome.notOk = []
      ∧ ResearchRoute.fetchDOAJ q (FetchOutcome.ok []) = [])
  ∧ (∀ (q : String) (now : Int) (efetch : FetchOutcome (List WeeklyRoute.PubMedBlock)),
        WeeklyRoute.searchPubMed q now FetchOutcome.err efetch = []
      ∧ WeeklyRoute.searchPubMed q now FetchOutcome.notOk efetch = []
      ∧ WeeklyRoute.searchPubMed q now (FetchOutcome.ok []) efetch = [])
  ∧ (∀ (q : String) (ids : List String),
        WeeklyRoute.searchPubMed q 0 (FetchOutcome.ok ids) FetchOutcome.err = []
      ∧ WeeklyRoute.searchPubMed q 0 (FetchOutcome.ok ids) FetchOutcome.notOk = [])
  ∧ (∀ (q : String) (env : ResearchRoute.SearchEnv),
        ResearchRoute.searchAll q { env with epmc := FetchOutcome.err }
          = ResearchRoute.searchAll q { env with epmc := FetchOutcome.ok [] })
  ∧ (∀ (q : String) (env : ResearchRoute.SearchEnv),
        ResearchRoute.searchAll q { env with epmc := FetchOutcome.err }
          = ResearchRoute.rankSort
              ((ResearchRoute.uniqueResults
                  (ResearchRoute.fetchSemanticScholar q env.semanticScholar
                    ++ ResearchRoute.fetchPubMed q env.pubmedSearch env.pubmedSummary
                        env.pubmedEfetch
                    ++ ResearchRoute.fetchDOAJ q env.doaj)).map
                ResearchRoute.scorePaper)) := by
  refine ⟨fun q => ⟨rfl, rfl, rfl⟩, fun q => ⟨rfl, rfl, rfl⟩,
    fun q s e => ⟨rfl, rfl, rfl⟩, fun q ids e => ⟨?_, ?_⟩,
    fun q => ⟨rfl, rfl, rfl⟩, fun q now e => ⟨rfl, rfl, rfl⟩,
    fun q ids => ⟨?_, ?_⟩, fun q env => rfl, fun q env => rfl⟩
  · cases ids <;> rfl
  · cases ids <;> rfl
  · cases ids <;> rfl
  · cases ids <;> rfl

namespace SearchService

/-- Witness for the amended C8 theorem at a concrete input: the empty store
and a one-article run have distinct urls, and the persisted collection
after the save has distinct urls. -/
theorem C8_witness :
    ((([] : List Article).map (·.url)).Nodup ∧ (([dupUrlA].map (·.url)).Nodup))
      ∧ (((saveSearchResults 0 [] [dupUrlA]).1).map (·.url)).Nodup :=
  ⟨⟨by decide, by decide⟩,
    C8_no_duplicate_urls 0 [] [dupUrlA] (by decide) (by decide)⟩

end SearchService
